import Mathlib

/-!
Shallow embedding of the Cloudflare Worker `worker.js` (secure redirect
landing page): rate limiter (`checkRateLimit`), KV-backed cache
(`getCachedData` / `setCachedData`), multi-strategy remote document fetch
(`getBlacklist`, `getWhitelistSet`, `getRandomRedirectUrl` / `fetchUrls`),
the validation handler (`handleValidation`) and the top-level request
router (`workerFetch`).

Modelling conventions:
- Asynchronous KV-store reads are passed in as `Except Unit` values
  (`.error ()` = the store threw / is unreachable); a KV write that the
  code performs is returned as data (`Option`), since the store itself is
  external.  A JS `try ... catch` is modelled by matching on the `Except`.
- Remote HTTP fetches are passed in as `Option` oracles: `none` means the
  transport failed, was non-ok, or the body failed to parse; `some c`
  is the successfully retrieved (and for the JSON methods, parsed) content.
- Epoch timestamps are `Int` (seconds for the rate limiter, milliseconds
  for the cache), durations are `Nat`.
- HTTP responses are modelled structurally (`Resp`): status plus the JSON
  body fields `success` / `message` / `redirectUrl`; since the code
  serialises bodies with the same `JSON.stringify` shape everywhere,
  equality of these fields is equality of the response bytes.  Plain-text
  bodies (405, 404) are modelled via `message` as well.
- `Math.random()`-based index selection is modelled by an arbitrary
  `Nat` parameter reduced mod the pool length (the code computes
  `Math.floor(Math.random() * urls.length)`, a value in `[0, length)`).
-/

/-- Result object of `checkRateLimit`: `{ allowed, remaining }`. -/
structure RateLimitResult where
  allowed : Bool
  remaining : Nat
deriving Repr, DecidableEq

/-- The body of `checkRateLimit`'s `try` block, given the already-read KV
record `stored` (the `requests` timestamp array, `none` if the key is
absent).  `putOk = false` makes the `RATE_LIMIT_KV.put` call throw.
Returns the result object together with the write performed, if any:
`some (timestamps, expirationTtl)` models
`put(key, {requests}, {expirationTtl})`. -/
def rateLimitTry (stored : Option (List Int)) (now : Int)
    (maxRequests windowSeconds : Nat) (putOk : Bool) :
    Except Unit (RateLimitResult × Option (List Int × Nat)) :=
  let windowStart : Int := now - (windowSeconds : Int)
  let requests := (stored.getD []).filter (fun t => windowStart < t)
  if maxRequests ≤ requests.length then
    .ok (⟨false, 0⟩, none)
  else
    let requests := requests ++ [now]
    if putOk then
      .ok (⟨true, maxRequests - requests.length⟩, some (requests, windowSeconds + 60))
    else
      .error ()

/-- `checkRateLimit(request, env)`: the KV read is passed in as `getRes`
(`.error ()` = `RATE_LIMIT_KV.get` threw).  The surrounding
`try ... catch` returns `{allowed: true, remaining: 1}` on any store
failure (fail-open). -/
def checkRateLimit (getRes : Except Unit (Option (List Int))) (now : Int)
    (maxRequests windowSeconds : Nat) (putOk : Bool) :
    RateLimitResult × Option (List Int × Nat) :=
  match getRes with
  | .error _ => (⟨true, 1⟩, none)
  | .ok stored =>
    match rateLimitTry stored now maxRequests windowSeconds putOk with
    | .ok r => r
    | .error _ => (⟨true, 1⟩, none)

/-- Run a sequence of rate-limit checks for one client key against an
in-memory KV store (reachable store, writes succeed), threading the
stored record through; returns the list of `allowed` verdicts and the
final stored record. -/
def runRateCalls (maxRequests windowSeconds : Nat)
    (stored : Option (List Int)) : List Int → List Bool × Option (List Int)
  | [] => ([], stored)
  | t :: ts =>
    let r := checkRateLimit (.ok stored) t maxRequests windowSeconds true
    let stored' := match r.2 with
      | some (l, _) => some l
      | none => stored
    let rest := runRateCalls maxRequests windowSeconds stored' ts
    (r.1.allowed :: rest.1, rest.2)

/-- A cache record as written by `setCachedData`:
`{ data, timestamp }` with `timestamp = Date.now()` in milliseconds. -/
structure CacheEntry (α : Type) where
  data : α
  timestamp : Int
deriving Repr, DecidableEq

/-- `getCachedData(key, env)`: the KV read of `cache:key` is passed in as
`getRes` (`.error ()` = the store threw; the `catch` returns `null`).
The code guards with `if (cached && cached.timestamp)`, so a zero
(JS-falsy) `timestamp` field also falls through to `null`; otherwise the
payload is returned exactly when `now - cached.timestamp < ttl * 1000`. -/
def getCachedData {α : Type} (getRes : Except Unit (Option (CacheEntry α)))
    (cacheTtl : Nat) (now : Int) : Option α :=
  match getRes with
  | .error _ => none
  | .ok none => none
  | .ok (some cached) =>
    if cached.timestamp ≠ 0 then
      if now - cached.timestamp < (cacheTtl : Int) * 1000 then some cached.data
      else none
    else none

/-- `setCachedData(key, data, env)`: returns the entry written to the KV
store together with the store-level `expirationTtl` used
(`ttl + 60`, the one-minute buffer over the logical TTL). -/
def setCachedData {α : Type} (data : α) (cacheTtl : Nat) (nowMs : Int) :
    CacheEntry α × Nat :=
  (⟨data, nowMs⟩, cacheTtl + 60)

/-- Split a character list at every occurrence of `sep`
(`acc` holds the current chunk, reversed). -/
def splitCharAux (sep : Char) : List Char → List Char → List (List Char)
  | [], acc => [acc.reverse]
  | c :: rest, acc =>
    if c = sep then acc.reverse :: splitCharAux sep rest []
    else splitCharAux sep rest (c :: acc)

/-- JS `s.split(sep)` for a one-character separator. -/
def splitChar (sep : Char) (l : List Char) : List (List Char) :=
  splitCharAux sep l []

/-- JS `content.split('\n')` as a list of strings. -/
def jsSplitLines (s : String) : List String :=
  (splitChar '\n' s.data).map fun l => ⟨l⟩

/-- JS `s.trim()`: strip leading and trailing whitespace. -/
def jsTrim (s : String) : String :=
  ⟨((s.data.dropWhile Char.isWhitespace).reverse.dropWhile
      Char.isWhitespace).reverse⟩

/-- JS `s.toLowerCase()` (ASCII range, per `Char.toLower`). -/
def lowerString (s : String) : String :=
  ⟨s.data.map Char.toLower⟩

/-- Parse rule of `getBlacklist`'s two methods:
`content.split('\n').filter(ip => ip.trim() !== '')`. -/
def parseIpLines (content : String) : List String :=
  (jsSplitLines content).filter (fun ip => jsTrim ip ≠ "")

/-- Parse rule of `getWhitelistSet`'s method 3 (`data/emails.txt`):
split lines, trim, keep non-blank lines containing `@`, lower-case. -/
def parseEmailLines (text : String) : List String :=
  ((((jsSplitLines text).map jsTrim).filter
    (fun e => e ≠ "" && e.data.contains '@')).map lowerString)

/-- Parse rule of `getRandomRedirectUrl`'s method 3 (`data/urls.txt`):
split lines, trim, keep non-blank lines starting with `http`. -/
def parseUrlLines (text : String) : List String :=
  (((jsSplitLines text).map jsTrim).filter
    (fun u => u ≠ "" && List.isPrefixOf "http".data u.data))

/-- `getBlacklist(env)`.  `cached` is the (already age-checked) result of
`getCachedData('blacklist')`; `m1` / `m2` are the raw text contents
retrieved by the GitHub-API and raw.githubusercontent methods (`none` =
transport failure or non-ok response).  Method 2 runs only when method 1
left the list empty; the final (possibly empty) list is returned and no
exception escapes. -/
def getBlacklist (cached : Option (List String)) (m1 m2 : Option String) :
    List String :=
  match cached with
  | some c => c
  | none =>
    let bl := match m1 with
      | some content => parseIpLines content
      | none => []
    let bl := if bl.length = 0 then
        match m2 with
        | some content => parseIpLines content
        | none => bl
      else bl
    bl

/-- `getWhitelistSet(env)`.  `cached` is the cached lower-cased email
array; `m1` / `m2` are the parsed `jsonData.emails || []` arrays of the
two JSON methods (`none` = transport or JSON-parse failure), `m3` the raw
text of `data/emails.txt`.  Each later method runs only when the list is
still empty; JSON emails are lower-cased.  The JS `Set` built at the end
is modelled by the list itself (membership via `List.contains`). -/
def getWhitelistSet (cached : Option (List String))
    (m1 m2 : Option (List String)) (m3 : Option String) : List String :=
  match cached with
  | some c => c
  | none =>
    let emails := match m1 with
      | some l => l.map lowerString
      | none => []
    let emails := if emails.length = 0 then
        match m2 with
        | some l => l.map lowerString
        | none => emails
      else emails
    let emails := if emails.length = 0 then
        match m3 with
        | some t => parseEmailLines t
        | none => emails
      else emails
    emails

/-- The redirect-URL pool computed by `getRandomRedirectUrl(env)` before
the random pick: cached array if present, else the method 1–3 fallback
chain (`jsonData.urls || []` for the JSON methods, `urls.txt` lines for
method 3). -/
def fetchUrls (cached : Option (List String))
    (m1 m2 : Option (List String)) (m3 : Option String) : List String :=
  match cached with
  | some c => c
  | none =>
    let urls := match m1 with
      | some l => l
      | none => []
    let urls := if urls.length = 0 then
        match m2 with
        | some l => l
        | none => urls
      else urls
    let urls := if urls.length = 0 then
        match m3 with
        | some t => parseUrlLines t
        | none => urls
      else urls
    urls

/-- `getRandomRedirectUrl(env)`: `null` when the pool is empty, else the
element at `Math.floor(Math.random() * urls.length)`, modelled as an
arbitrary `randomIndex` reduced mod the pool length. -/
def getRandomRedirectUrl (cached : Option (List String))
    (m1 m2 : Option (List String)) (m3 : Option String)
    (randomIndex : Nat) : Option String :=
  let urls := fetchUrls cached m1 m2 m3
  if urls.length = 0 then none
  else urls[randomIndex % urls.length]?

/-- A character of the regex class `[^\s@]`. -/
def isEmailChar (c : Char) : Bool :=
  !c.isWhitespace && c ≠ '@'

/-- `true` iff some `'.'` occurs in the list at a position that is not
the last one. -/
def dotBeforeEnd : List Char → Bool
  | [] => false
  | [_] => false
  | c :: rest => c = '.' || dotBeforeEnd rest

/-- The worker's email pattern `/^[^\s@]+@[^\s@]+\.[^\s@]+$/`: exactly one
`@`; a non-empty whitespace-free local part; a non-empty whitespace-free
remainder containing a `.` that is neither its first nor its last
character (so both sides of some literal `.` are non-empty). -/
def isValidEmail (s : String) : Bool :=
  match splitChar '@' s.data with
  | [a, rest] =>
    !a.isEmpty && a.all isEmailChar &&
    rest.all isEmailChar &&
    (match rest with
     | [] => false
     | _ :: t => dotBeforeEnd t)
  | _ => false


/-- The JSON body of `POST /api/validate`:
`{ email, turnstileToken, honeypotField }`; `none` models an absent
(JS `undefined`) field. -/
structure ValidationRequest where
  email : Option String
  turnstileToken : Option String
  honeypotField : Option String
deriving Repr, DecidableEq

/-- The JS condition `honeypotField && honeypotField.trim() !== ''`:
present, truthy (non-empty) and non-blank after trimming. -/
def honeypotFilled (r : ValidationRequest) : Bool :=
  match r.honeypotField with
  | some h => h ≠ "" && jsTrim h ≠ ""
  | none => false

/-- JS falsiness of a string field: absent (`undefined`) or `''`. -/
def fieldMissing : Option String → Bool
  | none => true
  | some s => s = ""

/-- An HTTP response: status plus the JSON body fields.  The handler
serialises every JSON body as `{success, message}` or
`{success, redirectUrl}`, so equality of these fields is byte-equality of
the response.  Plain-text bodies are carried in `message`. -/
structure Resp where
  status : Nat
  success : Bool
  message : Option String
  redirectUrl : Option String
deriving Repr, DecidableEq

/-- The final stage of `handleValidation`: the guard
`if (!redirectUrl)` is a JS falsiness test, so both `null` (empty pool
in `getRandomRedirectUrl`) and a picked pool entry that is the empty
string take the 500 branch; otherwise 200 with
`redirectUrl = url ++ email` (the literal submitted email appended). -/
def redirectStageResp (redirect : Option String) (email : String) : Resp :=
  match redirect with
  | none => ⟨500, false, some "No redirect URLs available", none⟩
  | some u =>
    if u = "" then ⟨500, false, some "No redirect URLs available", none⟩
    else ⟨200, true, none, some (u ++ email)⟩

/-- `handleValidation(request, env)` for a request whose JSON body parsed
(the `catch` → 500 path is not reached).  The awaited sub-results are
passed in: `turnstileValid` (`verifyTurnstile`, `false` also on error),
`blacklist` (`getBlacklist`), `whitelist` (`getWhitelistSet`, as a list
with `Set.has` = `List.contains`) and `redirect`
(`getRandomRedirectUrl`).  The checks run in source order:
method, honeypot, missing fields, email format, Turnstile, deny-list,
allow-list, redirect pool. -/
def handleValidation (method : String) (req : ValidationRequest)
    (turnstileValid : Bool) (blacklist : List String) (clientIP : String)
    (whitelist : List String) (redirect : Option String) : Resp :=
  if method ≠ "POST" then
    ⟨405, false, some "Method Not Allowed", none⟩
  else if honeypotFilled req then
    ⟨403, false, some "Access denied", none⟩
  else if fieldMissing req.email || fieldMissing req.turnstileToken then
    ⟨400, false, some "Missing required fields", none⟩
  else
    let email := req.email.getD ""
    if ¬ isValidEmail email then
      ⟨400, false, some "Invalid email format", none⟩
    else if ¬ turnstileValid then
      ⟨400, false,
        some "Verification failed. Please complete the challenge and try again.", none⟩
    else if blacklist.contains clientIP then
      ⟨403, false, some "Access denied", none⟩
    else if ¬ whitelist.contains (lowerString email) then
      ⟨403, false,
        some "Sorry, this email isn\x27t associated with this secure link", none⟩
    else
      redirectStageResp redirect email

/-- Outcome of the top-level `fetch` handler: which branch answered. -/
inductive WorkerOutcome where
  /-- The CORS preflight response (`OPTIONS`): 200, CORS headers, no body. -/
  | cors : WorkerOutcome
  /-- The 429 rate-limited response. -/
  | tooMany : WorkerOutcome
  /-- `serveStaticFile filename` (200 with the embedded asset). -/
  | staticFile (filename : String) : WorkerOutcome
  /-- `handleValidation`'s response. -/
  | api (r : Resp) : WorkerOutcome
  /-- The 404 `Not Found` response. -/
  | notFound : WorkerOutcome
deriving Repr, DecidableEq

/-- HTTP status of each `fetch` branch. -/
def outcomeStatus : WorkerOutcome → Nat
  | .cors => 200
  | .tooMany => 429
  | .staticFile _ => 200
  | .api r => r.status
  | .notFound => 404

/-- The top-level `fetch(request, env, ctx)` dispatch: `OPTIONS` is
answered before the rate-limit check; every other request consults the
rate limiter (its result is passed in as `rl`) before any path routing;
then paths are routed in source order.  `apiResp` is
`handleValidation`'s response, passed in since it is only awaited on the
`/api/validate` branch. -/
def workerFetch (method path : String) (rl : RateLimitResult)
    (apiResp : Resp) : WorkerOutcome :=
  if method = "OPTIONS" then .cors
  else if ¬ rl.allowed then .tooMany
  else if path = "/" ∨ path = "/index.html" then .staticFile "index.html"
  else if path = "/styles.css" then .staticFile "styles.css"
  else if path = "/script.js" then .staticFile "script.js"
  else if path = "/api/validate" then .api apiResp
  else .notFound

/-- A request that clears every access check (method, honeypot, field
presence, email format, Turnstile, deny-list, allow-list) reaches the
redirect stage. -/
lemma handleValidation_pass (req : ValidationRequest) (blacklist : List String)
    (clientIP : String) (whitelist : List String) (redirect : Option String)
    (hhp : honeypotFilled req = false)
    (he : fieldMissing req.email = false)
    (ht : fieldMissing req.turnstileToken = false)
    (hv : isValidEmail (req.email.getD "") = true)
    (hbl : blacklist.contains clientIP = false)
    (hwl : whitelist.contains (lowerString (req.email.getD "")) = true) :
    handleValidation "POST" req true blacklist clientIP whitelist redirect
      = redirectStageResp redirect (req.email.getD "") := by
  have hbl' : clientIP ∉ blacklist := by simpa using hbl
  have hwl' : lowerString (req.email.getD "") ∈ whitelist := by simpa using hwl
  simp [handleValidation, hhp, he, ht, hv, hbl', hwl']

/-- C8: a request with a present, non-blank honeypot field is rejected
with the access-denied response whatever the other inputs are: the
result does not depend on the Turnstile verdict, the deny-list, the
allow-list or the redirect pool, none of which is consulted. -/
theorem honeypot_rejects_before_other_checks (req : ValidationRequest)
    (h : honeypotFilled req = true)
    (turnstileValid : Bool) (blacklist : List String) (clientIP : String)
    (whitelist : List String) (redirect : Option String) :
    handleValidation "POST" req turnstileValid blacklist clientIP whitelist
        redirect
      = ⟨403, false, some "Access denied", none⟩ := by
  simp [handleValidation, h]

/-- Witness for C8: a filled honeypot rejects even though the email is
valid, whitelisted, the token present and Turnstile passes. -/
theorem honeypot_rejects_before_other_checks_witness :
    honeypotFilled ⟨some "user@example.com", some "tok", some "bot"⟩ = true
    ∧ handleValidation "POST"
        ⟨some "user@example.com", some "tok", some "bot"⟩ true []
        "1.2.3.4" ["user@example.com"] (some "https://x/")
      = ⟨403, false, some "Access denied", none⟩ :=
  ⟨by decide,
   honeypot_rejects_before_other_checks _ (by decide) _ _ _ _ _⟩

/-- C1 counterexample: with the same valid request from a deny-listed IP
versus a non-deny-listed IP whose email is missing from the allow-list,
the two rejection bodies are NOT identical (`Access denied` vs
`Sorry, this email isn't associated with this secure link`), refuting
the claimed byte-identical responses. -/
theorem denial_bodies_counterexample :
    ¬ ((handleValidation "POST" ⟨some "user@example.com", some "tok", none⟩
          true ["1.2.3.4"] "1.2.3.4" [] none).message =
       (handleValidation "POST" ⟨some "user@example.com", some "tok", none⟩
          true [] "1.2.3.4" [] none).message) := by decide

/-- C1 amended: the honeypot rejection and the deny-list rejection share
the identical 403 `Access denied` body; the bot-verification failure
instead returns 400 with its own message; the allow-list miss returns
403 with its own message — so a deny-list hit and an allow-list miss
share the status code but not the body. -/
theorem denial_responses_amended (req : ValidationRequest)
    (blacklist : List String) (clientIP : String) (whitelist : List String)
    (redirect : Option String)
    (hhp : honeypotFilled req = false)
    (he : fieldMissing req.email = false)
    (ht : fieldMissing req.turnstileToken = false)
    (hv : isValidEmail (req.email.getD "") = true) :
    (∀ (r' : ValidationRequest), honeypotFilled r' = true →
      ∀ (tv : Bool) (bl : List String) (ip : String) (wl : List String)
        (rd : Option String),
        handleValidation "POST" r' tv bl ip wl rd
          = ⟨403, false, some "Access denied", none⟩)
    ∧ handleValidation "POST" req false blacklist clientIP whitelist redirect
        = ⟨400, false,
            some "Verification failed. Please complete the challenge and try again.",
            none⟩
    ∧ (blacklist.contains clientIP = true →
        handleValidation "POST" req true blacklist clientIP whitelist redirect
          = ⟨403, false, some "Access denied", none⟩)
    ∧ (blacklist.contains clientIP = false →
       whitelist.contains (lowerString (req.email.getD "")) = false →
        handleValidation "POST" req true blacklist clientIP whitelist redirect
          = ⟨403, false,
              some "Sorry, this email isn\x27t associated with this secure link",
              none⟩)
    ∧ ("Sorry, this email isn\x27t associated with this secure link"
        ≠ "Access denied") := by
  refine ⟨?_, ?_, ?_, ?_, by decide⟩
  · intro r' h tv bl ip wl rd
    simp [handleValidation, h]
  · simp [handleValidation, hhp, he, ht, hv]
  · intro hbl
    have hbl' : clientIP ∈ blacklist := by simpa using hbl
    simp [handleValidation, hhp, he, ht, hv, hbl']
  · intro hbl hwl
    have hbl' : clientIP ∉ blacklist := by simpa using hbl
    have hwl' : lowerString (req.email.getD "") ∉ whitelist := by
      simpa using hwl
    simp [handleValidation, hhp, he, ht, hv, hbl', hwl']

/-- Witness for the amended C1: concrete Turnstile-failure and
deny-list-hit responses. -/
theorem denial_responses_amended_witness :
    handleValidation "POST" ⟨some "user@example.com", some "tok", none⟩
        false ["1.2.3.4"] "1.2.3.4" [] none
      = ⟨400, false,
          some "Verification failed. Please complete the challenge and try again.",
          none⟩
    ∧ handleValidation "POST" ⟨some "user@example.com", some "tok", none⟩
        true ["1.2.3.4"] "1.2.3.4" [] none
      = ⟨403, false, some "Access denied", none⟩ :=
  ⟨(denial_responses_amended _ _ _ _ _ (by decide) (by decide) (by decide)
      (by decide)).2.1,
   (denial_responses_amended ⟨some "user@example.com", some "tok", none⟩
      ["1.2.3.4"] "1.2.3.4" [] none (by decide) (by decide) (by decide)
      (by decide)).2.2.1 (by decide)⟩

/-- C3: when the filtered timestamp count has already reached
`maxRequests`, the rate limiter rejects, performs no KV write (the
stored record is untouched) and returns `{allowed: false, remaining: 0}`,
whether or not a write would have succeeded. -/
theorem rateLimit_reject_writes_nothing (stored : Option (List Int))
    (now : Int) (maxRequests windowSeconds : Nat) (putOk : Bool)
    (h : maxRequests ≤ ((stored.getD []).filter
          (fun t => now - (windowSeconds : Int) < t)).length) :
    checkRateLimit (.ok stored) now maxRequests windowSeconds putOk
      = (⟨false, 0⟩, none) := by
  simp [checkRateLimit, rateLimitTry, h]

/-- Witness for C3: two stored timestamps inside the window, cap 2. -/
theorem rateLimit_reject_writes_nothing_witness :
    checkRateLimit (.ok (some [5, 6])) 10 2 60 true = (⟨false, 0⟩, none) :=
  rateLimit_reject_writes_nothing _ _ _ _ _ (by decide)

/-- C4: if the KV read throws, or the KV write throws on an
admitted-request path, the surrounding `catch` fails open: the result is
`{allowed: true, remaining: 1}` and no exception escapes `checkRateLimit`
(the model is a total function). -/
theorem rateLimit_fails_open (stored : Option (List Int)) (now : Int)
    (maxRequests windowSeconds : Nat) (putOk : Bool)
    (hlen : ((stored.getD []).filter
          (fun t => now - (windowSeconds : Int) < t)).length < maxRequests) :
    checkRateLimit (.error ()) now maxRequests windowSeconds putOk
        = (⟨true, 1⟩, none)
    ∧ checkRateLimit (.ok stored) now maxRequests windowSeconds false
        = (⟨true, 1⟩, none) := by
  refine ⟨rfl, ?_⟩
  simp [checkRateLimit, rateLimitTry, Nat.not_le.mpr hlen]

/-- Witness for C4: a fresh client with an unreachable store, and a
client whose write fails. -/
theorem rateLimit_fails_open_witness :
    checkRateLimit (.error ()) 100 10 60 true = (⟨true, 1⟩, none)
    ∧ checkRateLimit (.ok (some [90])) 100 10 60 false = (⟨true, 1⟩, none) :=
  ⟨(rateLimit_fails_open (some [90]) 100 10 60 true (by decide)).1,
   (rateLimit_fails_open (some [90]) 100 10 60 true (by decide)).2⟩

/-- C10: every non-`OPTIONS` request — whatever its path, including
static assets and unknown routes — is answered 429 when the rate
limiter rejects, before any path routing; an `OPTIONS` request is
answered 200 (the CORS preflight response) independently of the rate
limiter, hence never rate-limited. -/
theorem router_rate_gate (method path : String) (rl : RateLimitResult)
    (apiResp : Resp) (hm : method ≠ "OPTIONS") :
    (rl.allowed = false →
      workerFetch method path rl apiResp = .tooMany
      ∧ outcomeStatus (workerFetch method path rl apiResp) = 429)
    ∧ workerFetch "OPTIONS" path rl apiResp = .cors
    ∧ outcomeStatus (workerFetch "OPTIONS" path rl apiResp) = 200 := by
  refine ⟨?_, by simp [workerFetch], by simp [workerFetch, outcomeStatus]⟩
  intro hr
  constructor
  · simp [workerFetch, hm, hr]
  · simp [workerFetch, outcomeStatus, hm, hr]

/-- Witness for C10: a rate-limited GET for an unknown path is answered
429; OPTIONS is answered 200 even with the same rejecting limiter. -/
theorem router_rate_gate_witness :
    workerFetch "GET" "/nowhere" ⟨false, 0⟩ ⟨200, true, none, none⟩
      = .tooMany
    ∧ outcomeStatus (workerFetch "OPTIONS" "/nowhere" ⟨false, 0⟩
        ⟨200, true, none, none⟩) = 200 :=
  ⟨((router_rate_gate "GET" "/nowhere" ⟨false, 0⟩ ⟨200, true, none, none⟩
      (by decide)).1 rfl).1,
   (router_rate_gate "GET" "/nowhere" ⟨false, 0⟩ ⟨200, true, none, none⟩
      (by decide)).2.2⟩

/-- C5 counterexample: the claim's "absent exactly when ... the age
exceeds `ttl*1000`" fails at the boundary: an entry of exact age
`ttl * 1000` ms (timestamp 1000, now 301000, ttl 300) is already absent
although its age does not exceed `ttl * 1000`; and an entry whose stored
timestamp is `0` (JS-falsy) is absent even when fresh (now 100). -/
theorem cache_get_counterexample :
    ¬ (getCachedData
          (Except.ok (some (⟨["x"], 1000⟩ : CacheEntry (List String))))
          300 301000 = none
        ↔ (301000 : Int) - 1000 > (300 : Int) * 1000)
    ∧ getCachedData
        (Except.ok (some (⟨["x"], 0⟩ : CacheEntry (List String)))) 300 100
      = none := by
  refine ⟨fun h => ?_, by decide⟩
  have := h.mp (by decide)
  omega

/-- C5 amended: for entries whose stored timestamp is non-zero (the code
treats a JS-falsy timestamp as no entry), `get` is absent exactly when
there is no entry, the store read fails, or the age is at least
`ttl * 1000` ms; otherwise it returns the stored payload — in particular
absence at age ≥ `ttl*1000` holds even though the physical entry is
written with store expiration `ttl + 60` seconds. -/
theorem cache_get_ttl_amended {α : Type}
    (getRes : Except Unit (Option (CacheEntry α))) (ttl : Nat) (now : Int)
    (hts : ∀ e, getRes = .ok (some e) → e.timestamp ≠ 0) :
    (getCachedData getRes ttl now = none ↔
      (getRes = .error () ∨ getRes = .ok none ∨
        ∃ e, getRes = .ok (some e) ∧ (ttl : Int) * 1000 ≤ now - e.timestamp))
    ∧ (∀ e, getRes = .ok (some e) → now - e.timestamp < (ttl : Int) * 1000 →
        getCachedData getRes ttl now = some e.data)
    ∧ (∀ (d : α) (nowMs : Int), (setCachedData d ttl nowMs).2 = ttl + 60) := by
  refine ⟨?_, ?_, fun d nowMs => rfl⟩
  · cases getRes with
    | error u => cases u; simp [getCachedData]
    | ok o =>
      cases o with
      | none => simp [getCachedData]
      | some e =>
        have hne : e.timestamp ≠ 0 := hts e rfl
        have hrw : getCachedData (Except.ok (some e)) ttl now
            = if now - e.timestamp < (ttl : Int) * 1000 then some e.data
              else none := by
          simp [getCachedData, hne]
        rw [hrw]
        split_ifs with hage
        · simp
          omega
        · simp
          omega
  · intro e hres hage
    cases hres
    have hne : e.timestamp ≠ 0 := hts e rfl
    simp [getCachedData, hne, hage]

/-- Witness for the amended C5: a fresh entry is returned. -/
theorem cache_get_ttl_amended_witness :
    getCachedData
        (Except.ok (some (⟨["x"], 1000⟩ : CacheEntry (List String))))
        300 200000
      = some ["x"] :=
  (cache_get_ttl_amended
      (Except.ok (some (⟨["x"], 1000⟩ : CacheEntry (List String))))
      300 200000 (fun e he => by cases he; decide)).2.1
    ⟨["x"], 1000⟩ rfl (by decide)

/-- Method 1 of `getWhitelistSet` wins (and methods 2–3 are skipped) as
soon as its parsed email list is non-empty. -/
lemma getWhitelistSet_method1 (l : List String) (m2 : Option (List String))
    (m3 : Option String) (h : l ≠ []) :
    getWhitelistSet none (some l) m2 m3 = l.map lowerString := by
  simp [getWhitelistSet, h]

/-- C6 counterexample: a first strategy whose transport succeeds and
whose content parses — to an empty email list — does NOT win: the next
strategy still runs and its non-empty result is returned, so the result
is not the first strategy's parsed content. -/
theorem fetch_priority_counterexample :
    ¬ (getWhitelistSet none (some []) (some ["a@b.c"]) none
        = List.map lowerString []) := by decide

/-- C6 amended: strategies run in fixed order, and the first one whose
transport succeeds and whose parsed content is NON-EMPTY wins, the rest
being skipped; a strategy that succeeds with empty content is treated
like a failure (fall through); when every strategy fails or yields empty
content the result is the empty collection, and the fetchers are total
(no exception escapes). -/
theorem fetch_strategy_order_amended :
    (∀ (l : List String) (m2 : Option (List String)) (m3 : Option String),
      l ≠ [] → getWhitelistSet none (some l) m2 m3 = l.map lowerString)
    ∧ (∀ (m1 : Option (List String)), (m1 = none ∨ m1 = some []) →
       ∀ (l : List String) (m3 : Option String), l ≠ [] →
        getWhitelistSet none m1 (some l) m3 = l.map lowerString)
    ∧ (∀ (m1 m2 : Option (List String)), (m1 = none ∨ m1 = some []) →
       (m2 = none ∨ m2 = some []) → ∀ (t : String),
        getWhitelistSet none m1 m2 (some t) = parseEmailLines t)
    ∧ getWhitelistSet none none none none = []
    ∧ (∀ (s : String) (m2 : Option String), parseIpLines s ≠ [] →
        getBlacklist none (some s) m2 = parseIpLines s)
    ∧ (∀ (m1 : Option String),
        (m1 = none ∨ ∃ s, m1 = some s ∧ parseIpLines s = []) →
       ∀ (m2 : Option String), getBlacklist none m1 m2
        = match m2 with
          | some s2 => parseIpLines s2
          | none => []) := by
  refine ⟨getWhitelistSet_method1, ?_, ?_, rfl, ?_, ?_⟩
  · rintro m1 (rfl | rfl) l m3 h <;> simp [getWhitelistSet, h]
  · rintro m1 m2 (rfl | rfl) (rfl | rfl) t <;> simp [getWhitelistSet]
  · intro s m2 h
    simp [getBlacklist, h]
  · rintro m1 (rfl | ⟨s, rfl, hs⟩) m2
    · cases m2 <;> simp [getBlacklist]
    · cases m2 <;> simp [getBlacklist, hs]

/-- Witness for the amended C6: a non-empty method 1 list wins and is
lower-cased; with methods 1–2 failing, method 3's text parse is used. -/
theorem fetch_strategy_order_amended_witness :
    getWhitelistSet none (some ["A@B.c"]) (some ["z@z.z"]) none
      = List.map lowerString ["A@B.c"]
    ∧ getWhitelistSet none none none (some "a@b.c\n\nnot-an-email\n")
      = parseEmailLines "a@b.c\n\nnot-an-email\n" :=
  ⟨fetch_strategy_order_amended.1 ["A@B.c"] (some ["z@z.z"]) none
      (by decide),
   fetch_strategy_order_amended.2.2.1 none none (Or.inl rfl) (Or.inl rfl)
      "a@b.c\n\nnot-an-email\n"⟩

/-- C7: allow-list matching is case-insensitive — if the fetched list
contains an entry equal to the submitted email up to letter case, the
allow-list check admits the request (membership of the lower-cased email
in the lower-cased list holds, and the handler reaches the redirect
stage). -/
theorem allowlist_case_insensitive
    (req : ValidationRequest) (blacklist : List String) (clientIP : String)
    (L : List String) (m2 : Option (List String)) (m3 : Option String)
    (redirect : Option String) (e : String)
    (hhp : honeypotFilled req = false)
    (he : fieldMissing req.email = false)
    (ht : fieldMissing req.turnstileToken = false)
    (hv : isValidEmail (req.email.getD "") = true)
    (hbl : blacklist.contains clientIP = false)
    (hmem : e ∈ L)
    (hcase : lowerString e = lowerString (req.email.getD "")) :
    (getWhitelistSet none (some L) m2 m3).contains
        (lowerString (req.email.getD "")) = true
    ∧ handleValidation "POST" req true blacklist clientIP
        (getWhitelistSet none (some L) m2 m3) redirect
      = redirectStageResp redirect (req.email.getD "") := by
  have hL : L ≠ [] := by
    intro h
    subst h
    exact absurd hmem (List.not_mem_nil e)
  have hset := getWhitelistSet_method1 L m2 m3 hL
  have hmemlow : lowerString (req.email.getD "") ∈ L.map lowerString :=
    hcase ▸ List.mem_map_of_mem lowerString hmem
  have hcontains : (getWhitelistSet none (some L) m2 m3).contains
      (lowerString (req.email.getD "")) = true := by
    rw [hset]
    simpa using hmemlow
  exact ⟨hcontains,
    handleValidation_pass req blacklist clientIP _ redirect hhp he ht hv hbl
      hcontains⟩

/-- Witness for C7: list entry `User@Example.com`, request email
`user@example.com`. -/
theorem allowlist_case_insensitive_witness :
    handleValidation "POST" ⟨some "user@example.com", some "tok", none⟩
        true [] "1.2.3.4"
        (getWhitelistSet none (some ["User@Example.com"]) none none)
        (some "https://x/r?u=")
      = ⟨200, true, none, some "https://x/r?u=user@example.com"⟩ :=
  (allowlist_case_insensitive
      ⟨some "user@example.com", some "tok", none⟩ [] "1.2.3.4"
      ["User@Example.com"] none none (some "https://x/r?u=")
      "User@Example.com" (by decide) (by decide) (by decide) (by decide)
      (by decide) (by decide) (by decide)).2

/-- C9 counterexample: a reachable, NON-empty redirect pool whose single
entry is the empty string (no URL validation is applied on the JSON
methods) makes a fully authorized request return the 500
`No redirect URLs available` response instead of the claimed success:
`if (!redirectUrl)` is a falsiness test, and the picked entry `''` is
falsy. -/
theorem redirect_pool_counterexample :
    fetchUrls none (some [""]) none none ≠ []
    ∧ handleValidation "POST" ⟨some "admin@co.com", some "tok", none⟩ true
        [] "1.2.3.4" ["admin@co.com"]
        (getRandomRedirectUrl none (some [""]) none none 0)
      = ⟨500, false, some "No redirect URLs available", none⟩ := by
  exact ⟨by decide, by decide⟩

/-- C9 amended: for a request that passes every access check, an empty
redirect pool yields the 500 server-error response (not a 403/400); a
non-empty pool yields success with `redirectUrl` equal to the randomly
selected pool entry with the literal (original-case) email appended —
unless that selected entry is the empty string, which the handler's
falsiness guard treats like an empty pool, returning the same 500
response. -/
theorem redirect_pool_behavior
    (req : ValidationRequest) (blacklist : List String) (clientIP : String)
    (whitelist : List String) (cached : Option (List String))
    (m1 m2 : Option (List String)) (m3 : Option String) (randomIndex : Nat)
    (hhp : honeypotFilled req = false)
    (he : fieldMissing req.email = false)
    (ht : fieldMissing req.turnstileToken = false)
    (hv : isValidEmail (req.email.getD "") = true)
    (hbl : blacklist.contains clientIP = false)
    (hwl : whitelist.contains (lowerString (req.email.getD "")) = true) :
    (fetchUrls cached m1 m2 m3 = [] →
      handleValidation "POST" req true blacklist clientIP whitelist
          (getRandomRedirectUrl cached m1 m2 m3 randomIndex)
        = ⟨500, false, some "No redirect URLs available", none⟩)
    ∧ (fetchUrls cached m1 m2 m3 ≠ [] →
      ∃ u ∈ fetchUrls cached m1 m2 m3,
        handleValidation "POST" req true blacklist clientIP whitelist
            (getRandomRedirectUrl cached m1 m2 m3 randomIndex)
          = if u = "" then
              ⟨500, false, some "No redirect URLs available", none⟩
            else ⟨200, true, none, some (u ++ req.email.getD "")⟩) := by
  have hpass := handleValidation_pass req blacklist clientIP whitelist
    (getRandomRedirectUrl cached m1 m2 m3 randomIndex) hhp he ht hv hbl hwl
  constructor
  · intro hempty
    have hru : getRandomRedirectUrl cached m1 m2 m3 randomIndex = none := by
      simp [getRandomRedirectUrl, hempty]
    rw [hpass, hru]
    rfl
  · intro hne
    have hlen : 0 < (fetchUrls cached m1 m2 m3).length :=
      List.length_pos.mpr hne
    have hmod : randomIndex % (fetchUrls cached m1 m2 m3).length
        < (fetchUrls cached m1 m2 m3).length := Nat.mod_lt _ hlen
    refine ⟨(fetchUrls cached m1 m2 m3)[randomIndex %
        (fetchUrls cached m1 m2 m3).length], List.getElem_mem hmod, ?_⟩
    have hru : getRandomRedirectUrl cached m1 m2 m3 randomIndex
        = some ((fetchUrls cached m1 m2 m3)[randomIndex %
            (fetchUrls cached m1 m2 m3).length]) := by
      simp [getRandomRedirectUrl, Nat.pos_iff_ne_zero.mp hlen,
        List.getElem?_eq_getElem hmod]
    rw [hpass, hru]
    rfl

/-- Witness for the amended C9: a pool whose selected entry is a
non-empty URL returns success with the email appended; the same request
with an empty pool returns the 500 response. -/
theorem redirect_pool_behavior_witness :
    handleValidation "POST" ⟨some "admin@co.com", some "tok", none⟩ true []
        "1.2.3.4" ["admin@co.com"]
        (getRandomRedirectUrl none (some ["https://x/r?u="]) none none 0)
      = ⟨200, true, none, some "https://x/r?u=admin@co.com"⟩
    ∧ handleValidation "POST" ⟨some "admin@co.com", some "tok", none⟩ true []
        "1.2.3.4" ["admin@co.com"]
        (getRandomRedirectUrl none none none none 0)
      = ⟨500, false, some "No redirect URLs available", none⟩ := by
  constructor
  · obtain ⟨u, hu, hresp⟩ :=
      (redirect_pool_behavior ⟨some "admin@co.com", some "tok", none⟩ []
        "1.2.3.4" ["admin@co.com"] none (some ["https://x/r?u="]) none none 0
        (by decide) (by decide) (by decide) (by decide) (by decide)
        (by decide)).2 (by decide)
    have : u = "https://x/r?u=" := by
      have := hu
      simp [fetchUrls] at this
      exact this
    rw [this] at hresp
    rw [hresp]
    decide
  · exact (redirect_pool_behavior ⟨some "admin@co.com", some "tok", none⟩ []
      "1.2.3.4" ["admin@co.com"] none none none none 0
      (by decide) (by decide) (by decide) (by decide) (by decide)
      (by decide)).1 (by decide)

/-- A single admitted call: when every stored timestamp survives the
window filter and the cap still has room, the call is admitted and its
timestamp appended. -/
lemma checkRateLimit_allows (stored : Option (List Int)) (now : Int)
    (m w : Nat)
    (hfil : (stored.getD []).filter (fun t => now - (w : Int) < t)
      = stored.getD [])
    (hlt : (stored.getD []).length < m) :
    checkRateLimit (.ok stored) now m w true
      = (⟨true, m - ((stored.getD []).length + 1)⟩,
         some (stored.getD [] ++ [now], w + 60)) := by
  simp [checkRateLimit, rateLimitTry, hfil, Nat.not_le.mpr hlt]

/-- One admitted step of `runRateCalls`: the verdict is recorded and the
written record becomes the stored one for the remaining calls. -/
lemma runRateCalls_cons_allowed (m w : Nat) (stored : Option (List Int))
    (t : Int) (ts : List Int) (res : RateLimitResult) (l : List Int)
    (e : Nat) (h : checkRateLimit (.ok stored) t m w true = (res, some (l, e))) :
    runRateCalls m w stored (t :: ts)
      = (res.allowed :: (runRateCalls m w (some l) ts).1,
         (runRateCalls m w (some l) ts).2) := by
  simp [runRateCalls, h]

/-- While every call's timestamp lies in one `windowSeconds` span
`[lo, lo + w)` together with the stored timestamps, and the cap has
room for all of them, every call is admitted and the final record holds
all the timestamps in order. -/
lemma runRateCalls_all_allowed (m w : Nat) (lo : Int) :
    ∀ (ts : List Int) (stored : Option (List Int)), ts ≠ [] →
    (∀ t ∈ stored.getD [], lo ≤ t ∧ t < lo + (w : Int)) →
    (∀ t ∈ ts, lo ≤ t ∧ t < lo + (w : Int)) →
    (stored.getD []).length + ts.length ≤ m →
    runRateCalls m w stored ts
      = (List.replicate ts.length true, some (stored.getD [] ++ ts)) := by
  intro ts
  induction ts with
  | nil => intro stored hne _ _ _; exact absurd rfl hne
  | cons t ts ih =>
    intro stored _ hpre hts hlen
    have hfil : (stored.getD []).filter (fun x => t - (w : Int) < x)
        = stored.getD [] := by
      rw [List.filter_eq_self]
      intro x hx
      have h1 := (hpre x hx).1
      have h2 := (hts t (List.mem_cons_self t ts)).2
      simp only [decide_eq_true_eq]
      omega
    have hlt : (stored.getD []).length < m := by
      simp at hlen
      omega
    have hstep := checkRateLimit_allows stored t m w hfil hlt
    have hpre' : ∀ x ∈ stored.getD [] ++ [t], lo ≤ x ∧ x < lo + (w : Int) := by
      intro x hx
      rcases List.mem_append.mp hx with hx | hx
      · exact hpre x hx
      · rw [List.mem_singleton.mp hx]
        exact hts t (List.mem_cons_self t ts)
    rw [runRateCalls_cons_allowed m w stored t ts _ _ _ hstep]
    cases ts with
    | nil =>
      simp [runRateCalls]
    | cons t' ts' =>
      have hrest := ih (some (stored.getD [] ++ [t])) (by simp)
        (by simpa using hpre')
        (fun x hx => hts x (List.mem_cons_of_mem t hx))
        (by simp at hlen ⊢; omega)
      simp only [Option.getD_some] at hrest
      rw [hrest]
      simp [List.replicate_succ]

/-- C2: with the store reachable, `maxRequests` calls whose timestamps
all lie within one `windowSeconds` window are all admitted; a further
call still inside that window is rejected (`allowed = false`,
`remaining = 0`); and a call made once the window has fully elapsed
after every admitted timestamp is admitted again. -/
theorem rateLimiter_sliding_window (m w : Nat) (lo tnext tlater : Int)
    (times : List Int) (hm : 0 < m) (hlen : times.length = m)
    (hin : ∀ t ∈ times, lo ≤ t ∧ t < lo + (w : Int))
    (hnext : lo ≤ tnext ∧ tnext < lo + (w : Int))
    (hlater : ∀ t ∈ times, t + (w : Int) ≤ tlater) :
    (runRateCalls m w none times).1 = List.replicate m true
    ∧ (checkRateLimit (.ok (runRateCalls m w none times).2) tnext m w
        true).1 = ⟨false, 0⟩
    ∧ (checkRateLimit (.ok (runRateCalls m w none times).2) tlater m w
        true).1.allowed = true := by
  have hne : times ≠ [] := by
    intro h
    rw [h] at hlen
    simp at hlen
    omega
  have hrun := runRateCalls_all_allowed m w lo times none hne (by simp) hin
    (by simp [hlen])
  rw [hrun]
  refine ⟨by rw [hlen], ?_, ?_⟩
  · have hfil2 : times.filter (fun t => tnext - (w : Int) < t) = times := by
      rw [List.filter_eq_self]
      intro x hx
      have h1 := (hin x hx).1
      simp only [decide_eq_true_eq]
      omega
    simp [checkRateLimit, rateLimitTry, hfil2, hlen]
  · have hfil3 : times.filter (fun t => tlater - (w : Int) < t) = [] := by
      rw [List.filter_eq_nil_iff]
      intro x hx
      have := hlater x hx
      simp only [decide_eq_true_eq]
      omega
    simp [checkRateLimit, rateLimitTry, hfil3, Nat.not_le.mpr hm]

/-- Witness for C2: cap 2, window 60 s, calls at 100 and 130 admitted,
a third call at 150 rejected, a call at 200 admitted again. -/
theorem rateLimiter_sliding_window_witness :
    (runRateCalls 2 60 none [100, 130]).1 = List.replicate 2 true
    ∧ (checkRateLimit (.ok (runRateCalls 2 60 none [100, 130]).2) 150 2 60
        true).1 = ⟨false, 0⟩
    ∧ (checkRateLimit (.ok (runRateCalls 2 60 none [100, 130]).2) 200 2 60
        true).1.allowed = true :=
  rateLimiter_sliding_window 2 60 100 150 200 [100, 130] (by decide)
    (by decide) (by decide) (by decide) (by decide)
